import Mathlib

/-!
# Verification of the Three-VFX particle simulation core

Shallow embedding of the particle simulation engine of `core-vfx`:
the CPU fallback physics update (`webgl-fallback/cpu-update.ts`), the
curve sampler (`webgl-fallback/curve-sampler.ts`), and the spawn /
auto-emit logic of `particle-system.ts`.

Numbers are modelled as exact rationals (ℚ): JavaScript IEEE doubles are
idealised to exact arithmetic, which is the standard reading of the
spec's "numerically equivalent within tolerance" requirements.  The
deterministic helper functions `hash`, `curlNoise` and `Math.sqrt`
(whose sources live outside the embedded files and which both backends
share verbatim) are passed in as explicit function parameters, so every
statement is parametric in them.
-/

namespace ThreeVFX

/-- A 3-component vector of rationals, the model of a `vec3` / three
scalar slots of a structure-of-arrays buffer. -/
structure Vec3 where
  x : ℚ
  y : ℚ
  z : ℚ
  deriving Repr, DecidableEq

namespace Vec3

def add (a b : Vec3) : Vec3 := ⟨a.x + b.x, a.y + b.y, a.z + b.z⟩

def sub (a b : Vec3) : Vec3 := ⟨a.x - b.x, a.y - b.y, a.z - b.z⟩

def smul (c : ℚ) (a : Vec3) : Vec3 := ⟨c * a.x, c * a.y, c * a.z⟩

def dot (a b : Vec3) : ℚ := a.x * b.x + a.y * b.y + a.z * b.z

def cross (a b : Vec3) : Vec3 :=
  ⟨a.y * b.z - a.z * b.y, a.z * b.x - a.x * b.z, a.x * b.y - a.y * b.x⟩

instance : Add Vec3 := ⟨add⟩

instance : Sub Vec3 := ⟨sub⟩

instance : SMul ℚ Vec3 := ⟨smul⟩

theorem add_def (a b : Vec3) : a + b = ⟨a.x + b.x, a.y + b.y, a.z + b.z⟩ := rfl

theorem sub_def (a b : Vec3) : a - b = ⟨a.x - b.x, a.y - b.y, a.z - b.z⟩ := rfl

theorem smul_def (c : ℚ) (a : Vec3) : c • a = ⟨c * a.x, c * a.y, c * a.z⟩ := rfl

end Vec3

/-- Per-particle state: one row across the parallel storage arrays
(`positions`, `velocities`, `lifetimes`, `fadeRates`, `particleSizes`,
`particleRotations`) at a fixed particle index. -/
structure Particle where
  position : Vec3
  velocity : Vec3
  lifetime : ℚ
  fadeRate : ℚ
  size : ℚ
  rotation : Vec3
  deriving Repr, DecidableEq

/-- One attractor slot as pre-read by `cpuUpdate` from the uniforms
`attractor{a}Pos/Strength/Radius/Type/Axis`. -/
structure Attractor where
  px : ℚ
  py : ℚ
  pz : ℚ
  strength : ℚ
  radius : ℚ
  type : ℚ
  ax : ℚ
  ay : ℚ
  az : ℚ
  deriving Repr, DecidableEq

/-- The simulation uniforms read by `cpuUpdate`, together with the
`ShaderFeatures` flags (`features.turbulence` etc.) and the fact of
whether the rotation storage array exists (`cpu.particleRotations !==
null`).  Boolean-valued uniforms are kept as rationals and compared
against `0.5` exactly as the code does. -/
structure Config where
  deltaTime : ℚ
  gravityX : ℚ
  gravityY : ℚ
  gravityZ : ℚ
  sizeBasedGravity : ℚ
  velocityCurveEnabled : ℚ
  frictionEasingType : ℚ
  frictionIntensityStart : ℚ
  frictionIntensityEnd : ℚ
  featTurbulence : Bool
  turbulenceIntensity : ℚ
  turbulenceFrequency : ℚ
  turbulenceTime : ℚ
  featAttractors : Bool
  attractorCount : ℕ
  attractors : List Attractor
  featCollision : Bool
  collisionEnabled : ℚ
  collisionPlaneY : ℚ
  collisionBounce : ℚ
  collisionFriction : ℚ
  collisionDie : ℚ
  featRotation : Bool
  hasRotationStorage : Bool
  rotationSpeedMinX : ℚ
  rotationSpeedMaxX : ℚ
  rotationSpeedMinY : ℚ
  rotationSpeedMaxY : ℚ
  rotationSpeedMinZ : ℚ
  rotationSpeedMaxZ : ℚ
  rotationSpeedCurveEnabled : ℚ

/-- The deterministic helper functions shared by both backends:
`Math.sqrt`, the `hash` of `webgl-fallback/hash.ts` and the `curlNoise`
of `webgl-fallback/noise.ts`.  All statements are parametric in them;
the spec only requires that both backends use the same ones. -/
structure SimFns where
  sqrt : ℚ → ℚ
  hash : ℕ → ℚ
  curl : ℚ → ℚ → ℚ → ℚ → Vec3

/-- The curve texture: flat RGBA float pixel data plus its width, as in
`curveTexture.image.data` / `curveTexture.image.width`. -/
structure CurveTex where
  data : List ℚ
  width : ℕ
  deriving Repr

/-- An RGBA sample, the return value of `sampleCurve`. -/
structure Sample where
  r : ℚ
  g : ℚ
  b : ℚ
  a : ℚ
  deriving Repr, DecidableEq

/-- Reading `data[i]` in JavaScript: out-of-range reads yield
`undefined`; they never occur under the preconditions of the theorems
below, and are modelled as `0`. -/
def CurveTex.dataAt (tex : CurveTex) (i : ℤ) : ℚ :=
  if 0 ≤ i then tex.data.getD i.toNat 0 else 0

/-- `sampleCurve` from `webgl-fallback/curve-sampler.ts`: clamp progress
to `[0,1]`, map to texel coordinate `t*(width-1)`, floor / min / frac,
then linearly interpolate each RGBA channel between texel `idx0` and
texel `idx1`. -/
def sampleCurve (tex : CurveTex) (progress : ℚ) : Sample :=
  let t : ℚ := max 0 (min 1 progress)
  let texelPos : ℚ := t * ((tex.width : ℚ) - 1)
  let idx0 : ℤ := ⌊texelPos⌋
  let idx1 : ℤ := min (idx0 + 1) ((tex.width : ℤ) - 1)
  let frac : ℚ := texelPos - (idx0 : ℚ)
  let base0 : ℤ := idx0 * 4
  let base1 : ℤ := idx1 * 4
  { r := tex.dataAt base0 * (1 - frac) + tex.dataAt base1 * frac
    g := tex.dataAt (base0 + 1) * (1 - frac) + tex.dataAt (base1 + 1) * frac
    b := tex.dataAt (base0 + 2) * (1 - frac) + tex.dataAt (base1 + 2) * frac
    a := tex.dataAt (base0 + 3) * (1 - frac) + tex.dataAt (base1 + 3) * frac }

/-- The texel at integer index `i` of the texture (4 floats per texel). -/
def CurveTex.texel (tex : CurveTex) (i : ℕ) : Sample :=
  { r := tex.dataAt ((i : ℤ) * 4)
    g := tex.dataAt ((i : ℤ) * 4 + 1)
    b := tex.dataAt ((i : ℤ) * 4 + 2)
    a := tex.dataAt ((i : ℤ) * 4 + 3) }

namespace Config

/-- Effective turbulence intensity: `0` when `features.turbulence` is
`false` (the uniform is not even read). -/
def turbIntensity (c : Config) : ℚ :=
  if c.featTurbulence then c.turbulenceIntensity else 0

def turbFreq (c : Config) : ℚ :=
  if c.featTurbulence then c.turbulenceFrequency else 0

def turbTime (c : Config) : ℚ :=
  if c.featTurbulence then c.turbulenceTime else 0

/-- The pre-read attractor list (`for a < attractorCount && a < 4`),
empty when `features.attractors` is `false`. -/
def attractorsRead (c : Config) : List Attractor :=
  if c.featAttractors then c.attractors.take (min c.attractorCount 4) else []

def collisionOn (c : Config) : Prop :=
  c.featCollision = true ∧ 1 / 2 < c.collisionEnabled

instance (c : Config) : Decidable c.collisionOn := by
  unfold collisionOn; infer_instance

def dieOn (c : Config) : Prop :=
  c.featCollision = true ∧ 1 / 2 < c.collisionDie

instance (c : Config) : Decidable c.dieOn := by
  unfold dieOn; infer_instance

def rotationOn (c : Config) : Prop :=
  c.featRotation = true ∧ c.hasRotationStorage = true

instance (c : Config) : Decidable c.rotationOn := by
  unfold rotationOn; infer_instance

end Config

/-- The eased progress of the friction branch of `cpuUpdate`
(`frictionEasingType` selects linear / easeIn / easeOut / easeInOut). -/
def easedProgress (easingType p : ℚ) : ℚ :=
  if easingType < 1 / 2 then p
  else if easingType < 3 / 2 then p * p
  else if easingType < 5 / 2 then 1 - (1 - p) * (1 - p)
  else if p < 1 / 2 then 2 * p * p else 1 - (-2 * p + 2) ^ 2 / 2

/-- `speedScale` as computed by `cpuUpdate`: the velocity-curve B channel
when the velocity curve is enabled, otherwise `1 - intensity * 0.9` with
the eased friction intensity. -/
def speedScaleOf (c : Config) (tex : CurveTex) (progress : ℚ) : ℚ :=
  if 1 / 2 < c.velocityCurveEnabled then (sampleCurve tex progress).b
  else
    let eased := easedProgress c.frictionEasingType progress
    let currentIntensity :=
      c.frictionIntensityStart +
        (c.frictionIntensityEnd - c.frictionIntensityStart) * eased
    1 - currentIntensity * (9 / 10)

/-- The turbulence phase of `cpuUpdate`: curl noise sampled at
`position * frequency + timePhase` (axis time multipliers 1, 0.7, 1.3),
added to the velocity scaled by `intensity * dt`.  Skipped unless the
feature is on and the intensity exceeds `0.001`. -/
def turbulencePhase (fns : SimFns) (c : Config) (p v : Vec3) : Vec3 :=
  if c.featTurbulence ∧ 1 / 1000 < c.turbIntensity then
    let n := fns.curl (p.x * c.turbFreq + c.turbTime)
      (p.y * c.turbFreq + c.turbTime * (7 / 10))
      (p.z * c.turbFreq + c.turbTime * (13 / 10)) (1 / 100)
    v + (c.turbIntensity * c.deltaTime) • n
  else v

/-- The vector from the particle to the attractor (`toX/toY/toZ`). -/
def toAttractor (att : Attractor) (p : Vec3) : Vec3 :=
  ⟨att.px - p.x, att.py - p.y, att.pz - p.z⟩

/-- `dist`, the (pseudo-)Euclidean distance to the attractor computed
with the shared square-root function. -/
def attDist (sqrtQ : ℚ → ℚ) (att : Attractor) (p : Vec3) : ℚ :=
  let toA := toAttractor att p
  sqrtQ (toA.x * toA.x + toA.y * toA.y + toA.z * toA.z)

/-- `safeDist = max(dist, 0.01)`, the minimum-epsilon clamp before
normalizing. -/
def attSafeDist (sqrtQ : ℚ → ℚ) (att : Attractor) (p : Vec3) : ℚ :=
  max (attDist sqrtQ att p) (1 / 100)

/-- The falloff: linear `max(0, 1 - dist/radius)` when `radius > 0.001`,
else inverse-square `1/(safeDist² + 1)`. -/
def attFalloff (sqrtQ : ℚ → ℚ) (att : Attractor) (p : Vec3) : ℚ :=
  if 1 / 1000 < att.radius then max 0 (1 - attDist sqrtQ att p / att.radius)
  else 1 / (attSafeDist sqrtQ att p * attSafeDist sqrtQ att p + 1)

/-- The force a single attractor adds to the velocity (before the `dt`
scaling), from the attractor loop body of `cpuUpdate`. -/
def attractorForce (sqrtQ : ℚ → ℚ) (att : Attractor) (p : Vec3) : Vec3 :=
  let toA := toAttractor att p
  let safeDist := attSafeDist sqrtQ att p
  let dir : Vec3 := ⟨toA.x / safeDist, toA.y / safeDist, toA.z / safeDist⟩
  let falloff := attFalloff sqrtQ att p
  if att.type < 1 / 2 then (att.strength * falloff) • dir
  else
    let tangent := Vec3.cross ⟨att.ax, att.ay, att.az⟩ toA
    let tangentLen :=
      max (sqrtQ (tangent.x * tangent.x + tangent.y * tangent.y +
        tangent.z * tangent.z)) (1 / 1000)
    ((att.strength * falloff) / tangentLen) • tangent

/-- The attractor phase: fold the pre-read attractors over the velocity,
skipping any with `|strength| ≤ 0.001`, each force scaled by `dt`. -/
def attractorsPhase (fns : SimFns) (c : Config) (p : Vec3) (v : Vec3) : Vec3 :=
  c.attractorsRead.foldl
    (fun acc att =>
      if |att.strength| ≤ 1 / 1000 then acc
      else acc + c.deltaTime • attractorForce fns.sqrt att p)
    v

/-- The velocity after gravity, turbulence and attractors of a live
particle, before position integration (`vx, vy, vz` at line 218 of
`cpu-update.ts`). -/
def integratedVel (fns : SimFns) (c : Config) (s : Particle) : Vec3 :=
  let gravMult := 1 + s.size * c.sizeBasedGravity
  let v1 : Vec3 := s.velocity +
    (c.deltaTime * gravMult) • (⟨c.gravityX, c.gravityY, c.gravityZ⟩ : Vec3)
  let v2 := turbulencePhase fns c s.position v1
  attractorsPhase fns c s.position v2

/-- The position after the integration step `position += velocity * dt *
speedScale` of a live particle. -/
def integratedPos (fns : SimFns) (c : Config) (tex : CurveTex)
    (s : Particle) : Vec3 :=
  let speedScale := speedScaleOf c tex (1 - s.lifetime)
  s.position + (c.deltaTime * speedScale) • integratedVel fns c s

/-- The rotation angles after the rotation block of `cpuUpdate` (hash
offsets 8888 / 9999 / 10101, optional rotation-speed curve A channel). -/
def rotationPhase (fns : SimFns) (c : Config) (tex : CurveTex) (i : ℕ)
    (progress : ℚ) (rot : Vec3) : Vec3 :=
  if c.rotationOn then
    let rotSpeedX := c.rotationSpeedMinX +
      (c.rotationSpeedMaxX - c.rotationSpeedMinX) * fns.hash (i + 8888)
    let rotSpeedY := c.rotationSpeedMinY +
      (c.rotationSpeedMaxY - c.rotationSpeedMinY) * fns.hash (i + 9999)
    let rotSpeedZ := c.rotationSpeedMinZ +
      (c.rotationSpeedMaxZ - c.rotationSpeedMinZ) * fns.hash (i + 10101)
    let rotSpeedMult :=
      if 1 / 2 < c.rotationSpeedCurveEnabled then (sampleCurve tex progress).a
      else 1
    ⟨rot.x + rotSpeedX * c.deltaTime * rotSpeedMult,
     rot.y + rotSpeedY * c.deltaTime * rotSpeedMult,
     rot.z + rotSpeedZ * c.deltaTime * rotSpeedMult⟩
  else rot

/-- The per-particle body of the `for` loop of `cpuUpdate`
(`cpu-update.ts` lines 104-280): skip dead particles, apply gravity,
speed scale, turbulence, attractors, integrate position, collide against
the plane, integrate rotation, decay and clamp the lifetime. -/
def cpuStep (fns : SimFns) (c : Config) (tex : CurveTex) (i : ℕ)
    (s : Particle) : Particle :=
  if s.lifetime ≤ 0 then s
  else
    let progress := 1 - s.lifetime
    let v := integratedVel fns c s
    let p := integratedPos fns c tex s
    if c.collisionOn ∧ p.y < c.collisionPlaneY then
      if c.dieOn then
        { s with lifetime := 0, velocity := v,
                 position := ⟨p.x, -1000, p.z⟩ }
      else
        let p2 : Vec3 := ⟨p.x, c.collisionPlaneY, p.z⟩
        let v2 : Vec3 := ⟨v.x * c.collisionFriction,
          |v.y| * c.collisionBounce, v.z * c.collisionFriction⟩
        let rot := rotationPhase fns c tex i progress s.rotation
        let newLifetime := s.lifetime - s.fadeRate * c.deltaTime
        if newLifetime ≤ 0 then
          { s with lifetime := 0, velocity := v2, rotation := rot,
                   position := ⟨p2.x, -1000, p2.z⟩ }
        else
          { s with lifetime := newLifetime, velocity := v2, rotation := rot,
                   position := p2 }
    else
      let rot := rotationPhase fns c tex i progress s.rotation
      let newLifetime := s.lifetime - s.fadeRate * c.deltaTime
      if newLifetime ≤ 0 then
        { s with lifetime := 0, velocity := v, rotation := rot,
                 position := ⟨p.x, -1000, p.z⟩ }
      else
        { s with lifetime := newLifetime, velocity := v, rotation := rot,
                 position := p }

/-- `cpuUpdate` over the whole store: the loop body applied to every
index `0 ≤ i < maxParticles`; each iteration reads and writes only the
state of its own index. -/
def cpuUpdate (fns : SimFns) (c : Config) (tex : CurveTex)
    (store : List Particle) : List Particle :=
  store.mapIdx (fun i s => cpuStep fns c tex i s)

/-! ## Spawn allocator (`VFXParticleSystem.spawn`) -/

/-- The ring-buffer cursor arithmetic of `VFXParticleSystem.spawn`
(`particle-system.ts`): `endIdx = (startIdx + count) % maxParticles`,
which becomes both `spawnIndexEnd` and the new `nextIndex`.  The call
has no guard on `count`, so every `count` is accepted. -/
def spawnEndIdx (k count cap : ℕ) : ℕ := (k + count) % cap

/-- Modelled from the spec: the spawn kernel (`cpuSpawn` of
`webgl-fallback` and `shaders/spawn.ts`, whose sources are not among the
embedded files) initializes exactly the `count` claimed indices, i.e.
the half-open range `[nextIndex, nextIndex+count) mod capacity`, one
write per requested particle in request order. -/
def spawnClaimedIndices (k count cap : ℕ) : List ℕ :=
  (List.range count).map (fun j => (k + j) % cap)

/-- Modelled from the spec: the effect of the spawn kernel on the store,
as the in-order sequence of writes to the claimed slots (`writeVal j` is
the initial state of the `j`-th requested particle). -/
def spawnApplyWrites {α : Type} (writeVal : ℕ → α) (k count cap : ℕ)
    (store : ℕ → α) : ℕ → α :=
  (List.range count).foldl
    (fun st j => Function.update st ((k + j) % cap) (writeVal j)) store

/-- The index of the last requested particle of a spawn call that was
written to slot `s`, if any. -/
def lastWriter (k : ℕ) : ℕ → ℕ → ℕ → Option ℕ
  | 0, _, _ => none
  | n + 1, cap, s => if (k + n) % cap = s then some n else lastWriter k n cap s

/-! ## Spawn overrides (`applySpawnOverrides` and its caller) -/

/-- The mutable uniform store, keyed abstractly by naturals. -/
def Uniforms : Type := ℕ → ℚ

/-- Writing a list of key/value pairs into the uniform store in order. -/
def applyPatch (patch : List (ℕ × ℚ)) (u : Uniforms) : Uniforms :=
  patch.foldl (fun st kv => Function.update st kv.1 kv.2) u

/-- Modelled from the spec: `applySpawnOverrides` (`uniforms.ts`, not
among the embedded files) records the prior values of exactly the
overridden keys before substituting them, so that the returned restore
closure can write the prior values back. -/
def savePrior (patch : List (ℕ × ℚ)) (u : Uniforms) : List (ℕ × ℚ) :=
  patch.map (fun kv => (kv.1, u kv.1))

/-- The control flow of `VFXParticleSystem.spawn` around the overrides
(`particle-system.ts`): `const restore = applySpawnOverrides(...)`, then
the spawn write, then `if (restore) restore()` — straight-line code with
no try/finally, so a write that throws exits the call before the restore
runs.  The result is the flag "an exception propagated" together with
the final uniform store. -/
def spawnOverridesRun (u : Uniforms) (overrides : Option (List (ℕ × ℚ)))
    (writeThrows : Bool) : Bool × Uniforms :=
  match overrides with
  | none => (writeThrows, u)
  | some patch =>
    let saved := savePrior patch u
    let u1 := applyPatch patch u
    if writeThrows then (true, u1) else (false, applyPatch saved u1)

/-! ## Emitter schedule (`VFXParticleSystem.autoEmit`) -/

/-- The emitter-schedule state of `VFXParticleSystem`: the emitting
flag, the accumulator, and the normalized `delay` / `emitCount` props. -/
structure EmitterState where
  isEmitting : Bool
  emitAccumulator : ℚ
  delay : ℚ
  emitCount : ℕ
  deriving Repr, DecidableEq

/-- `VFXParticleSystem.autoEmit(delta)` (`particle-system.ts` lines
543-560): no-op unless emitting; with a JS-falsy (`0`) delay, one spawn
request per call; otherwise accumulate `delta` and, when the accumulator
reaches `delay`, subtract `delay` (keeping the overshoot) and issue one
spawn request.  Returns the new state and the number of spawn requests
issued by this call. -/
def autoEmit (st : EmitterState) (delta : ℚ) : EmitterState × ℕ :=
  if st.isEmitting = false then (st, 0)
  else if st.delay = 0 then (st, 1)
  else
    let acc := st.emitAccumulator + delta
    if st.delay ≤ acc then ({ st with emitAccumulator := acc - st.delay }, 1)
    else ({ st with emitAccumulator := acc }, 0)

/-! ## The Device-Parallel backend, modelled from the spec

The GPU update kernel (`shaders/update.ts`) is not among the embedded
source files; it is modelled here from spec §4.3/§4.6, step by step in
the spec's own phrasing, to be compared with `cpuStep` above. -/

/-- Linear interpolation, `lerp(a, b, t)` as used by spec §4.3. -/
def lerp (a b t : ℚ) : ℚ := a + (b - a) * t

/-- Modelled from the spec: the four easing kinds of §4.3 step 2,
`linear: p`, `easeIn: p²`, `easeOut: 1-(1-p)²`,
`easeInOut: p<0.5 ? 2p² : 1-(-2p+2)²/2`, selected by the same numeric
uniform encoding (0/1/2/3) as the host backend. -/
def gpuEase (kind p : ℚ) : ℚ :=
  if kind < 1 / 2 then p
  else if kind < 3 / 2 then p ^ 2
  else if kind < 5 / 2 then 1 - (1 - p) ^ 2
  else if p < 1 / 2 then 2 * p ^ 2 else 1 - (-2 * p + 2) ^ 2 / 2

/-- Modelled from the spec: §4.3 step 2 — `speedScale` is the velocity
channel of the curve at `progress` when the velocity curve is enabled,
else `1 - lerp(frictionStart, frictionEnd, easedProgress) * 0.9`. -/
def gpuSpeedScale (c : Config) (tex : CurveTex) (progress : ℚ) : ℚ :=
  if 1 / 2 < c.velocityCurveEnabled then (sampleCurve tex progress).b
  else
    1 - lerp c.frictionIntensityStart c.frictionIntensityEnd
      (gpuEase c.frictionEasingType progress) * (9 / 10)

/-- Modelled from the spec: §4.3 step 3 — turbulence, skipped when the
intensity is at or below `0.001`; curl noise sampled at
`position * frequency + timePhase` with axis time multipliers
`(1, 0.7, 1.3)`, added as `curl * intensity * dt`. -/
def gpuTurbulence (fns : SimFns) (c : Config) (p v : Vec3) : Vec3 :=
  if c.featTurbulence ∧ 1 / 1000 < c.turbIntensity then
    let n := fns.curl (p.x * c.turbFreq + c.turbTime)
      (p.y * c.turbFreq + c.turbTime * (7 / 10))
      (p.z * c.turbFreq + c.turbTime * (13 / 10)) (1 / 100)
    ⟨v.x + n.x * c.turbIntensity * c.deltaTime,
     v.y + n.y * c.turbIntensity * c.deltaTime,
     v.z + n.z * c.turbIntensity * c.deltaTime⟩
  else v

/-- Modelled from the spec: §4.3 step 4 — one attractor's force.
Distance clamped to `0.01` before normalizing; linear falloff
`max(0, 1 - dist/radius)` when `radius > 0.001`, else inverse-square
`1/(dist²+1)`; point force along the normalized vector toward the
attractor, vortex force along the normalized `cross(axis, toAttractor)`
with a `0.001` minimum-length clamp; force = direction * strength *
falloff. -/
def gpuAttractorForce (sqrtQ : ℚ → ℚ) (att : Attractor) (p : Vec3) : Vec3 :=
  let toA : Vec3 := Vec3.sub ⟨att.px, att.py, att.pz⟩ p
  let dist := sqrtQ (Vec3.dot toA toA)
  let safeDist := max dist (1 / 100)
  let falloff :=
    if 1 / 1000 < att.radius then max 0 (1 - dist / att.radius)
    else 1 / (safeDist ^ 2 + 1)
  if att.type < 1 / 2 then
    ⟨toA.x / safeDist * att.strength * falloff,
     toA.y / safeDist * att.strength * falloff,
     toA.z / safeDist * att.strength * falloff⟩
  else
    let tangent := Vec3.cross ⟨att.ax, att.ay, att.az⟩ toA
    let tangentLen := max (sqrtQ (Vec3.dot tangent tangent)) (1 / 1000)
    ⟨tangent.x / tangentLen * att.strength * falloff,
     tangent.y / tangentLen * att.strength * falloff,
     tangent.z / tangentLen * att.strength * falloff⟩

/-- Modelled from the spec: §4.3 step 4 — the up-to-4 attractors, each
skipped when `|strength| ≤ 0.001`, accumulated into the velocity scaled
by `dt`. -/
def gpuAttractors (fns : SimFns) (c : Config) (p : Vec3) (v : Vec3) : Vec3 :=
  c.attractorsRead.foldl
    (fun acc att =>
      if 1 / 1000 < |att.strength| then
        acc + c.deltaTime • gpuAttractorForce fns.sqrt att p
      else acc)
    v

/-- Modelled from the spec: §4.3 step 7 — per-axis rotation speed from a
hash of the index plus a fixed per-axis offset (the same offsets as the
host backend's `hash(i + 8888/9999/10101)`), lerped between the
configured min/max, scaled by the rotation-speed curve at `progress`
when that curve is enabled, integrated by `dt`. -/
def gpuRotation (fns : SimFns) (c : Config) (tex : CurveTex) (i : ℕ)
    (progress : ℚ) (rot : Vec3) : Vec3 :=
  if c.rotationOn then
    let m :=
      if 1 / 2 < c.rotationSpeedCurveEnabled then (sampleCurve tex progress).a
      else 1
    rot +
      (c.deltaTime * m) •
        (⟨lerp c.rotationSpeedMinX c.rotationSpeedMaxX (fns.hash (i + 8888)),
          lerp c.rotationSpeedMinY c.rotationSpeedMaxY (fns.hash (i + 9999)),
          lerp c.rotationSpeedMinZ c.rotationSpeedMaxZ
            (fns.hash (i + 10101))⟩ : Vec3)
  else rot

/-- Modelled from the spec: the Device-Parallel update kernel
(`shaders/update.ts`, not among the embedded files).  One independent
lane per particle index applies §4.3 steps 1-8 in order: gravity, speed
scale, turbulence, attractors, position integration, plane collision
(death is terminal within the tick), rotation, lifetime decay with the
dead sentinel `y = -1000`.  A dead lane leaves its state numerically
identical to untouched (§4.3). -/
def gpuStep (fns : SimFns) (c : Config) (tex : CurveTex) (i : ℕ)
    (s : Particle) : Particle :=
  if 0 < s.lifetime then
    let progress := 1 - s.lifetime
    let v1 := s.velocity +
      (c.deltaTime * (1 + s.size * c.sizeBasedGravity)) •
        (⟨c.gravityX, c.gravityY, c.gravityZ⟩ : Vec3)
    let speedScale := gpuSpeedScale c tex progress
    let v2 := gpuTurbulence fns c s.position v1
    let v3 := gpuAttractors fns c s.position v2
    let p := s.position + (c.deltaTime * speedScale) • v3
    if c.collisionOn ∧ p.y < c.collisionPlaneY then
      if c.dieOn then
        { s with lifetime := 0, velocity := v3, position := ⟨p.x, -1000, p.z⟩ }
      else
        let v4 : Vec3 := ⟨v3.x * c.collisionFriction,
          |v3.y| * c.collisionBounce, v3.z * c.collisionFriction⟩
        let rot := gpuRotation fns c tex i progress s.rotation
        let newLifetime := s.lifetime - s.fadeRate * c.deltaTime
        if newLifetime ≤ 0 then
          { s with lifetime := 0, velocity := v4, rotation := rot,
                   position := ⟨p.x, -1000, p.z⟩ }
        else
          { s with lifetime := newLifetime, velocity := v4, rotation := rot,
                   position := ⟨p.x, c.collisionPlaneY, p.z⟩ }
    else
      let rot := gpuRotation fns c tex i progress s.rotation
      let newLifetime := s.lifetime - s.fadeRate * c.deltaTime
      if newLifetime ≤ 0 then
        { s with lifetime := 0, velocity := v3, rotation := rot,
                 position := ⟨p.x, -1000, p.z⟩ }
      else
        { s with lifetime := newLifetime, velocity := v3, rotation := rot,
                 position := p }
  else s

/-- The Device-Parallel update over the whole store: one lane per index. -/
def gpuUpdate (fns : SimFns) (c : Config) (tex : CurveTex)
    (store : List Particle) : List Particle :=
  store.mapIdx (fun i s => gpuStep fns c tex i s)

instance : Inhabited Particle :=
  ⟨⟨⟨0, 0, 0⟩, ⟨0, 0, 0⟩, 0, 0, 0, ⟨0, 0, 0⟩⟩⟩

/-! ## General lemmas about the update loop -/

theorem cpuUpdate_length (fns : SimFns) (c : Config) (tex : CurveTex)
    (store : List Particle) :
    (cpuUpdate fns c tex store).length = store.length := by
  simp [cpuUpdate]

theorem cpuUpdate_get (fns : SimFns) (c : Config) (tex : CurveTex)
    (store : List Particle) (i : ℕ) (h : i < store.length)
    (h2 : i < (cpuUpdate fns c tex store).length) :
    (cpuUpdate fns c tex store).get ⟨i, h2⟩ =
      cpuStep fns c tex i (store.get ⟨i, h⟩) :=
  List.get_mapIdx store _ i h _

theorem cpuStep_dead (fns : SimFns) (c : Config) (tex : CurveTex) (i : ℕ)
    (s : Particle) (hdead : s.lifetime ≤ 0) : cpuStep fns c tex i s = s := by
  unfold cpuStep
  exact if_pos hdead

/-! ## C6: dead particles are untouched by a tick -/

/-- C6: on the sequential backend, a particle whose lifetime is `≤ 0`
before a tick has every stored field (position, velocity, lifetime,
fadeRate, size, rotation) unchanged by that tick's `cpuUpdate`. -/
theorem dead_particle_unchanged_by_tick (fns : SimFns) (c : Config)
    (tex : CurveTex) (store : List Particle) (i : ℕ) (h : i < store.length)
    (h2 : i < (cpuUpdate fns c tex store).length)
    (hdead : (store.get ⟨i, h⟩).lifetime ≤ 0) :
    (cpuUpdate fns c tex store).get ⟨i, h2⟩ = store.get ⟨i, h⟩ := by
  rw [cpuUpdate_get fns c tex store i h h2]
  exact cpuStep_dead fns c tex i _ hdead

/-! ## Concrete instances used to exercise the theorems -/

/-- Trivial helper functions (hash/noise/sqrt all zero), enough for
configurations that never reach them. -/
def zeroFns : SimFns := ⟨fun _ => 0, fun _ => 0, fun _ _ _ _ => ⟨0, 0, 0⟩⟩

/-- A 2-texel curve texture. -/
def demoTex : CurveTex := ⟨[1, 2, 3, 4, 5, 6, 7, 8], 2⟩

/-- A neutral configuration: `dt = 1`, no gravity, no features. -/
def baseConfig : Config where
  deltaTime := 1
  gravityX := 0
  gravityY := 0
  gravityZ := 0
  sizeBasedGravity := 0
  velocityCurveEnabled := 0
  frictionEasingType := 0
  frictionIntensityStart := 0
  frictionIntensityEnd := 0
  featTurbulence := false
  turbulenceIntensity := 0
  turbulenceFrequency := 0
  turbulenceTime := 0
  featAttractors := false
  attractorCount := 0
  attractors := []
  featCollision := false
  collisionEnabled := 0
  collisionPlaneY := 0
  collisionBounce := 0
  collisionFriction := 0
  collisionDie := 0
  featRotation := false
  hasRotationStorage := false
  rotationSpeedMinX := 0
  rotationSpeedMaxX := 0
  rotationSpeedMinY := 0
  rotationSpeedMaxY := 0
  rotationSpeedMinZ := 0
  rotationSpeedMaxZ := 0
  rotationSpeedCurveEnabled := 0

/-- A dead particle with arbitrary residual state. -/
def deadP : Particle := ⟨⟨1, 2, 3⟩, ⟨4, 5, 6⟩, 0, 1, 2, ⟨7, 8, 9⟩⟩

/-- Witness for the C6 theorem at a concrete dead particle. -/
theorem dead_particle_unchanged_by_tick_witness :
    (cpuUpdate zeroFns baseConfig demoTex [deadP]).get ⟨0, by decide⟩ = deadP :=
  dead_particle_unchanged_by_tick zeroFns baseConfig demoTex [deadP] 0
    (by decide) (by decide) (by decide)

/-! ## C9: curve sampling is clamped, edge texels exact -/

theorem sampleCurve_of_nonpos (tex : CurveTex) (p : ℚ) (hp : p ≤ 0) :
    sampleCurve tex p = tex.texel 0 := by
  simp only [sampleCurve, CurveTex.texel]
  rw [min_eq_right (hp.trans zero_le_one), max_eq_left hp]
  norm_num

theorem sampleCurve_of_one_le (tex : CurveTex) (hw : 1 ≤ tex.width) (p : ℚ)
    (hp : 1 ≤ p) : sampleCurve tex p = tex.texel (tex.width - 1) := by
  simp only [sampleCurve, CurveTex.texel]
  rw [min_eq_left hp, max_eq_right zero_le_one, one_mul]
  have hcast : ((tex.width : ℚ) - 1) = (((tex.width - 1 : ℕ) : ℤ) : ℚ) := by
    push_cast [hw]
    ring
  have hfloor : ⌊(tex.width : ℚ) - 1⌋ = ((tex.width - 1 : ℕ) : ℤ) := by
    rw [hcast, Int.floor_intCast]
  have hmin : min (((tex.width - 1 : ℕ) : ℤ) + 1) ((tex.width : ℤ) - 1) =
      ((tex.width - 1 : ℕ) : ℤ) := by
    have : ((tex.width : ℤ) - 1) = ((tex.width - 1 : ℕ) : ℤ) := by
      push_cast [hw]
      ring
    rw [this]
    exact min_eq_right (by linarith)
  rw [hfloor, hmin, hcast]
  norm_num

/-- C9: `sampleCurve` clamps progress to `[0,1]` and interpolates between
neighbouring texels, so on a texture of width `≥ 1` sampling at `0`
returns exactly the first texel, sampling at `1` returns exactly the
last texel, and any progress outside `[0,1]` yields exactly the
corresponding edge texel (no extrapolation). -/
theorem sampleCurve_edge_exact (tex : CurveTex) (hw : 1 ≤ tex.width) :
    sampleCurve tex 0 = tex.texel 0 ∧
    sampleCurve tex 1 = tex.texel (tex.width - 1) ∧
    (∀ p : ℚ, p ≤ 0 → sampleCurve tex p = tex.texel 0) ∧
    (∀ p : ℚ, 1 ≤ p → sampleCurve tex p = tex.texel (tex.width - 1)) :=
  ⟨sampleCurve_of_nonpos tex 0 le_rfl,
   sampleCurve_of_one_le tex hw 1 le_rfl,
   fun p hp => sampleCurve_of_nonpos tex p hp,
   fun p hp => sampleCurve_of_one_le tex hw p hp⟩

/-- Witness for the C9 theorem on a concrete 2-texel texture, including
an out-of-range progress. -/
theorem sampleCurve_edge_exact_witness :
    sampleCurve demoTex 0 = demoTex.texel 0 ∧
    sampleCurve demoTex 1 = demoTex.texel 1 ∧
    sampleCurve demoTex (3 / 2) = demoTex.texel 1 := by
  have h := sampleCurve_edge_exact demoTex (by decide)
  exact ⟨h.1, h.2.1, h.2.2.2 (3 / 2) (by norm_num)⟩

/-! ## C10: auto-emit issues at most one spawn request per call -/

/-- C10: with a positive delay, a single `autoEmit(delta)` call issues
at most one spawn request — even when the accumulator plus `delta`
reaches the delay (or several times the delay, the excess being retained
for later calls) — and whenever a spawn is issued the new accumulator is
exactly the old accumulator plus `delta` minus the delay. -/
theorem autoEmit_at_most_one_spawn (st : EmitterState) (delta : ℚ)
    (hd : 0 < st.delay) :
    (autoEmit st delta).2 ≤ 1 ∧
    ((autoEmit st delta).2 = 1 →
      (autoEmit st delta).1.emitAccumulator =
        st.emitAccumulator + delta - st.delay) ∧
    (st.isEmitting = true → st.delay ≤ st.emitAccumulator + delta →
      (autoEmit st delta).2 = 1) := by
  unfold autoEmit
  rcases hEm : st.isEmitting with _ | _
  · simp
  · have hne : ¬ st.delay = 0 := ne_of_gt hd
    simp only [hEm, hne, if_false]
    by_cases hacc : st.delay ≤ st.emitAccumulator + delta
    · simp [hacc]
    · simp [hacc]

/-- Witness for the C10 theorem: accumulator `0`, delay `1`, a call with
`delta = 5` (five full periods available) still issues exactly one
spawn request and retains the overshoot `4`. -/
theorem autoEmit_at_most_one_spawn_witness :
    (autoEmit ⟨true, 0, 1, 20⟩ 5).2 = 1 ∧
    (autoEmit ⟨true, 0, 1, 20⟩ 5).1.emitAccumulator = 0 + 5 - 1 := by
  have h := autoEmit_at_most_one_spawn ⟨true, 0, 1, 20⟩ 5 (by norm_num)
  have h1 : (autoEmit ⟨true, 0, 1, 20⟩ 5).2 = 1 := h.2.2 rfl (by norm_num)
  exact ⟨h1, h.2.1 h1⟩

/-! ## C2: the lifetime invariant is preserved by a tick -/

theorem cpuStep_lifetime_bounds (fns : SimFns) (c : Config) (tex : CurveTex)
    (i : ℕ) (s : Particle) (h0 : 0 ≤ s.lifetime) (h1 : s.lifetime ≤ 1)
    (hf : 0 ≤ s.fadeRate) (hdt : 0 ≤ c.deltaTime) :
    0 ≤ (cpuStep fns c tex i s).lifetime ∧
      (cpuStep fns c tex i s).lifetime ≤ 1 := by
  by_cases hd : s.lifetime ≤ 0
  · rw [cpuStep_dead fns c tex i s hd]
    exact ⟨h0, h1⟩
  · have hmul : 0 ≤ s.fadeRate * c.deltaTime := mul_nonneg hf hdt
    simp only [cpuStep]
    rw [if_neg hd]
    split_ifs with hcol hdie hl hl <;> dsimp only <;>
      first
      | exact ⟨le_rfl, zero_le_one⟩
      | exact ⟨le_of_lt (not_le.mp hl), by linarith⟩

/-- C2: a single `cpuUpdate` call preserves the lifetime invariant: for
every particle index, if every stored lifetime lies in `[0,1]` with a
nonnegative fade rate before the call, and the tick's `deltaTime` is
nonnegative, then `0 ≤ lifetime[i] ≤ 1` afterwards. -/
theorem lifetime_in_unit_interval_after_update (fns : SimFns) (c : Config)
    (tex : CurveTex) (store : List Particle) (hdt : 0 ≤ c.deltaTime)
    (hinv : ∀ j : Fin store.length, 0 ≤ (store.get j).lifetime ∧
      (store.get j).lifetime ≤ 1 ∧ 0 ≤ (store.get j).fadeRate)
    (i : ℕ) (h2 : i < (cpuUpdate fns c tex store).length) :
    0 ≤ ((cpuUpdate fns c tex store).get ⟨i, h2⟩).lifetime ∧
      ((cpuUpdate fns c tex store).get ⟨i, h2⟩).lifetime ≤ 1 := by
  have h : i < store.length := by
    rw [cpuUpdate_length] at h2
    exact h2
  rw [cpuUpdate_get fns c tex store i h h2]
  obtain ⟨ha, hb, hc⟩ := hinv ⟨i, h⟩
  exact cpuStep_lifetime_bounds fns c tex i _ ha hb hc hdt

/-- A freshly spawned particle: full lifetime, unit fade rate. -/
def liveP : Particle := ⟨⟨0, 0, 0⟩, ⟨1, 1, 1⟩, 1, 1, 1, ⟨0, 0, 0⟩⟩

/-- Witness for the C2 theorem: a full-lifetime particle with
`fadeRate = 1` under `dt = 1` stays inside `[0,1]` (it dies to `0`). -/
theorem lifetime_in_unit_interval_after_update_witness :
    0 ≤ ((cpuUpdate zeroFns baseConfig demoTex [liveP]).get
        ⟨0, by decide⟩).lifetime ∧
      ((cpuUpdate zeroFns baseConfig demoTex [liveP]).get
        ⟨0, by decide⟩).lifetime ≤ 1 :=
  lifetime_in_unit_interval_after_update zeroFns baseConfig demoTex [liveP]
    (by decide) (by decide) 0 (by decide)

/-! ## C8: bounce collision response -/

/-- C8: when collision is enabled with `die = false` and a live
particle's post-integration `position.y` falls below `planeY`, the tick
clamps `position.y` to `planeY`, sets `velocity.y` to
`|velocity.y| * bounce` (of the integrated velocity), and multiplies
`velocity.x` / `velocity.z` by the collision friction.  (The lifetime
decay of the same tick must not kill the particle, or the dead sentinel
overwrites `position.y`.) -/
theorem collision_bounce_response (fns : SimFns) (c : Config) (tex : CurveTex)
    (i : ℕ) (s : Particle) (hl : 0 < s.lifetime) (hcol : c.collisionOn)
    (hdie : ¬c.dieOn) (hy : (integratedPos fns c tex s).y < c.collisionPlaneY)
    (halive : 0 < s.lifetime - s.fadeRate * c.deltaTime) :
    (cpuStep fns c tex i s).velocity =
      ⟨(integratedVel fns c s).x * c.collisionFriction,
       |(integratedVel fns c s).y| * c.collisionBounce,
       (integratedVel fns c s).z * c.collisionFriction⟩ ∧
    (cpuStep fns c tex i s).position.y = c.collisionPlaneY := by
  simp only [cpuStep]
  rw [if_neg (not_le.mpr hl), if_pos ⟨hcol, hy⟩, if_neg hdie,
    if_neg (not_le.mpr halive)]
  exact ⟨rfl, rfl⟩

/-- Collision configuration of the C8 example: plane at `y = 0`,
`bounce = 0.5`, `friction = 1`, `die = false`. -/
def bounceConfig : Config :=
  { baseConfig with featCollision := true, collisionEnabled := 1,
                    collisionBounce := 1 / 2, collisionFriction := 1 }

/-- The C8 example particle: crossing the plane with `velocity.y = -4`. -/
def bounceP : Particle := ⟨⟨0, 1, 0⟩, ⟨0, -4, 0⟩, 1, 1 / 2, 0, ⟨0, 0, 0⟩⟩

/-- Witness for the C8 theorem: with `bounce = 0.5`, the particle
crossing the plane with `velocity.y = -4` ends the tick with
`velocity.y = 2` and `position.y` on the plane. -/
theorem collision_bounce_response_witness :
    (cpuStep zeroFns bounceConfig demoTex 0 bounceP).velocity.y = 2 ∧
    (cpuStep zeroFns bounceConfig demoTex 0 bounceP).position.y = 0 := by
  have hvel : integratedVel zeroFns bounceConfig bounceP = ⟨0, -4, 0⟩ := by
    norm_num [integratedVel, attractorsPhase, turbulencePhase,
      Config.attractorsRead, Config.turbIntensity, bounceConfig, baseConfig,
      bounceP, Vec3.add_def, Vec3.smul_def]
  have hpos : (integratedPos zeroFns bounceConfig demoTex bounceP).y = -3 := by
    simp only [integratedPos, hvel]
    norm_num [speedScaleOf, easedProgress, bounceConfig, baseConfig, bounceP,
      Vec3.add_def, Vec3.smul_def]
  have hplane : bounceConfig.collisionPlaneY = 0 := by
    norm_num [bounceConfig, baseConfig]
  have h := collision_bounce_response zeroFns bounceConfig demoTex 0 bounceP
    (by norm_num [bounceP])
    (by norm_num [Config.collisionOn, bounceConfig, baseConfig])
    (by norm_num [Config.dieOn, bounceConfig, baseConfig])
    (by rw [hpos, hplane]; norm_num)
    (by norm_num [bounceP, bounceConfig, baseConfig])
  refine ⟨?_, by rw [h.2, hplane]⟩
  rw [h.1]
  simp only [hvel]
  rw [show |(-4 : ℚ)| = 4 from by
    rw [abs_of_nonpos (by norm_num : (-4 : ℚ) ≤ 0)]; norm_num]
  norm_num [bounceConfig, baseConfig]

/-! ## C7: point forces are radial, vortex forces are tangential -/

theorem dot_cross_right (a b : Vec3) : Vec3.dot (Vec3.cross a b) b = 0 := by
  simp only [Vec3.dot, Vec3.cross]
  ring

theorem attFalloff_nonneg (sqrtQ : ℚ → ℚ) (att : Attractor) (p : Vec3) :
    0 ≤ attFalloff sqrtQ att p := by
  unfold attFalloff
  split_ifs
  · exact le_max_left 0 _
  · have h1 : (1 / 100 : ℚ) ≤ attSafeDist sqrtQ att p := le_max_right _ _
    have h2 : 0 < attSafeDist sqrtQ att p * attSafeDist sqrtQ att p + 1 := by
      nlinarith
    positivity

/-- C7: a point attractor's force (`type < 0.5`) is the scalar
`strength * falloff` times the clamp-normalized vector from the particle
to the attractor, with a nonnegative falloff; a vortex attractor's force
(`type ≥ 0.5`) is exactly orthogonal to that vector: their dot product
is zero in exact arithmetic.  Both hold for every value of the shared
square-root function. -/
theorem attractor_point_parallel_vortex_orthogonal (sqrtQ : ℚ → ℚ)
    (att : Attractor) (p : Vec3) :
    (att.type < 1 / 2 →
      attractorForce sqrtQ att p =
        (att.strength * attFalloff sqrtQ att p) •
          ((1 / attSafeDist sqrtQ att p) • toAttractor att p) ∧
      0 ≤ attFalloff sqrtQ att p) ∧
    (1 / 2 ≤ att.type →
      Vec3.dot (attractorForce sqrtQ att p) (toAttractor att p) = 0) := by
  constructor
  · intro hpt
    refine ⟨?_, attFalloff_nonneg sqrtQ att p⟩
    simp only [attractorForce, if_pos hpt, Vec3.smul_def, toAttractor]
    simp only [toAttractor, Vec3.mk.injEq]
    refine ⟨?_, ?_, ?_⟩ <;> field_simp
  · intro hvx
    simp only [attractorForce, if_neg (not_lt.mpr hvx)]
    simp only [Vec3.smul_def, Vec3.dot, Vec3.cross, toAttractor]
    ring

/-- A point attractor and a vortex attractor used to exercise C7. -/
def attPoint : Attractor := ⟨5, 0, 0, 2, 0, 0, 0, 1, 0⟩

def attVortex : Attractor := ⟨5, 0, 0, 2, 0, 1, 0, 1, 0⟩

/-- Witness for the C7 theorem at a concrete point attractor, vortex
attractor, particle position and square-root function. -/
theorem attractor_point_parallel_vortex_orthogonal_witness :
    (attractorForce zeroFns.sqrt attPoint ⟨1, 0, 0⟩ =
      (attPoint.strength * attFalloff zeroFns.sqrt attPoint ⟨1, 0, 0⟩) •
        ((1 / attSafeDist zeroFns.sqrt attPoint ⟨1, 0, 0⟩) •
          toAttractor attPoint ⟨1, 0, 0⟩)) ∧
    Vec3.dot (attractorForce zeroFns.sqrt attVortex ⟨1, 0, 0⟩)
      (toAttractor attVortex ⟨1, 0, 0⟩) = 0 := by
  have hp := attractor_point_parallel_vortex_orthogonal zeroFns.sqrt attPoint
    ⟨1, 0, 0⟩
  have hv := attractor_point_parallel_vortex_orthogonal zeroFns.sqrt attVortex
    ⟨1, 0, 0⟩
  exact ⟨(hp.1 (by norm_num [attPoint])).1, hv.2 (by norm_num [attVortex])⟩

/-! ## C3 / C4: the ring-buffer spawn allocator -/

theorem spawnApplyWrites_eq {α : Type} (writeVal : ℕ → α) (k count cap : ℕ)
    (store : ℕ → α) (s : ℕ) :
    spawnApplyWrites writeVal k count cap store s =
      match lastWriter k count cap s with
      | some j => writeVal j
      | none => store s := by
  induction count with
  | zero => rfl
  | succ n ih =>
    show (List.range (n + 1)).foldl _ store s = _
    rw [List.range_succ, List.foldl_append, List.foldl_cons, List.foldl_nil]
    have hfold : (List.range n).foldl
        (fun st j => Function.update st ((k + j) % cap) (writeVal j)) store =
        spawnApplyWrites writeVal k n cap store := rfl
    rw [hfold, Function.update_apply]
    by_cases h : (k + n) % cap = s
    · simp [lastWriter, h]
    · have h2 : ¬s = (k + n) % cap := fun hs => h hs.symm
      rw [if_neg h2]
      simp only [lastWriter, if_neg h]
      exact ih

theorem lastWriter_max (k count cap s j : ℕ)
    (h : lastWriter k count cap s = some j) :
    ∀ j2, j2 < count → (k + j2) % cap = s → j2 ≤ j := by
  induction count with
  | zero => intro j2 hj2 _; exact absurd hj2 (Nat.not_lt_zero j2)
  | succ n ih =>
    intro j2 hj2 hs
    by_cases hn : (k + n) % cap = s
    · have : j = n := by
        simp only [lastWriter, if_pos hn, Option.some.injEq] at h
        exact h.symm
      omega
    · simp only [lastWriter, if_neg hn] at h
      have hj2n : j2 ≠ n := fun he => hn (he ▸ hs)
      exact ih h j2 (by omega) hs

theorem lastWriter_exists (k count cap s : ℕ)
    (h : ∃ j, j < count ∧ (k + j) % cap = s) :
    ∃ jl, lastWriter k count cap s = some jl := by
  induction count with
  | zero =>
    obtain ⟨j, hj, _⟩ := h
    exact absurd hj (Nat.not_lt_zero j)
  | succ n ih =>
    by_cases hn : (k + n) % cap = s
    · exact ⟨n, by simp [lastWriter, hn]⟩
    · obtain ⟨j, hj, hs⟩ := h
      have hjn : j ≠ n := fun he => hn (he ▸ hs)
      obtain ⟨jl, hjl⟩ := ih ⟨j, by omega, hs⟩
      exact ⟨jl, by simp [lastWriter, hn, hjl]⟩

/-- C3: with capacity `C > 0`, cursor `0 ≤ k < C` and `0 < count ≤ C`,
a spawn claims exactly `count` pairwise-distinct indices, namely the
half-open range `[k, k+count) mod C`, and the cursor arithmetic of
`spawn` advances `nextIndex` to `(k+count) mod C`. -/
theorem spawn_claims_range_and_advances_cursor (cap k count : ℕ)
    (hcap : 0 < cap) (hk : k < cap) (hcount : 0 < count) (hle : count ≤ cap) :
    spawnEndIdx k count cap = (k + count) % cap ∧
    (spawnClaimedIndices k count cap).length = count ∧
    (spawnClaimedIndices k count cap).Nodup ∧
    (∀ s : ℕ, s ∈ spawnClaimedIndices k count cap ↔
      ∃ j, j < count ∧ s = (k + j) % cap) := by
  refine ⟨rfl, by simp [spawnClaimedIndices], ?_, ?_⟩
  · refine List.Nodup.map_on ?_ (List.nodup_range count)
    intro j1 h1 j2 h2 heq
    rw [List.mem_range] at h1 h2
    have hm : j1 % cap = j2 % cap :=
      Nat.ModEq.add_left_cancel' k heq
    rw [Nat.mod_eq_of_lt (lt_of_lt_of_le h1 hle),
      Nat.mod_eq_of_lt (lt_of_lt_of_le h2 hle)] at hm
    exact hm
  · intro s
    simp only [spawnClaimedIndices, List.mem_map, List.mem_range]
    constructor
    · rintro ⟨j, hj, rfl⟩
      exact ⟨j, hj, rfl⟩
    · rintro ⟨j, hj, rfl⟩
      exact ⟨j, hj, rfl⟩

/-- Witness for the C3 theorem: `C = 10`, `k = 8`, `count = 5` claims
exactly `{8, 9, 0, 1, 2}` and leaves the cursor at `3`. -/
theorem spawn_claims_range_and_advances_cursor_witness :
    spawnEndIdx 8 5 10 = 3 ∧ spawnClaimedIndices 8 5 10 = [8, 9, 0, 1, 2] ∧
    (spawnClaimedIndices 8 5 10).Nodup := by
  have h := spawn_claims_range_and_advances_cursor 10 8 5 (by decide)
    (by decide) (by decide) (by decide)
  exact ⟨by decide, by decide, h.2.2.1⟩

/-- C4: a spawn with `count` larger than the capacity is accepted (the
model is total and still performs all `count` writes) and wraps: the
slot of write `j` is claimed again by the later write `j + cap` of the
same call, and the value surviving in any slot written more than once is
that of the latest write to it — the fold of the in-order writes gives
every slot its `lastWriter`'s value, and the `lastWriter` is at least as
late as any other writer of that slot. -/
theorem spawn_overcapacity_wraps (cap k count : ℕ) (hcap : 0 < cap)
    (hover : cap < count) :
    (spawnClaimedIndices k count cap).length = count ∧
    (∃ j1 j2, j1 < j2 ∧ j2 < count ∧ (k + j1) % cap = (k + j2) % cap) ∧
    (∀ {α : Type} (writeVal : ℕ → α) (store : ℕ → α) (s : ℕ),
      spawnApplyWrites writeVal k count cap store s =
        match lastWriter k count cap s with
        | some j => writeVal j
        | none => store s) ∧
    (∀ j1 j2, j1 < j2 → j2 < count → (k + j1) % cap = (k + j2) % cap →
      ∃ jl, lastWriter k count cap ((k + j1) % cap) = some jl ∧ j2 ≤ jl) := by
  refine ⟨by simp [spawnClaimedIndices], ?_, ?_, ?_⟩
  · exact ⟨0, cap, hcap, hover, by rw [Nat.add_zero, ← Nat.add_mod_right]⟩
  · intro α writeVal store s
    exact spawnApplyWrites_eq writeVal k count cap store s
  · intro j1 j2 h12 h2 heq
    obtain ⟨jl, hjl⟩ := lastWriter_exists k count cap ((k + j1) % cap)
      ⟨j2, h2, heq.symm⟩
    exact ⟨jl, hjl, lastWriter_max k count cap _ jl hjl j2 h2 heq.symm⟩

/-- Witness for the C4 theorem: capacity `3`, cursor `1`, `count = 7`:
all seven writes happen and slot `1` (claimed by writes `0`, `3` and
`6`) ends up holding the value of the last write `6`. -/
theorem spawn_overcapacity_wraps_witness :
    (spawnClaimedIndices 1 7 3).length = 7 ∧
    spawnApplyWrites (fun j => j) 1 7 3 (fun _ => 99) 1 = 6 := by
  have h := spawn_overcapacity_wraps 3 1 7 (by decide) (by decide)
  refine ⟨h.1, ?_⟩
  rw [h.2.2.1 (fun j => j) (fun _ => 99) 1]
  rfl

/-! ## C5: override restoration and exception safety -/

theorem applyPatch_savePrior_apply (patch : List (ℕ × ℚ)) (u : Uniforms) :
    ∀ (w : Uniforms) (k : ℕ),
      applyPatch (savePrior patch u) w k =
        if k ∈ patch.map Prod.fst then u k else w k := by
  induction patch with
  | nil => intro w k; simp [savePrior, applyPatch]
  | cons p rest ih =>
    intro w k
    have hstep : applyPatch (savePrior (p :: rest) u) w =
        applyPatch (savePrior rest u) (Function.update w p.1 (u p.1)) := rfl
    rw [hstep, ih]
    by_cases hr : k ∈ rest.map Prod.fst
    · simp [hr]
    · by_cases hp : k = p.1
      · simp [hr, hp, Function.update_apply]
      · simp [hr, hp, Function.update_apply]

theorem applyPatch_apply_not_mem (patch : List (ℕ × ℚ)) :
    ∀ (u : Uniforms) (k : ℕ), k ∉ patch.map Prod.fst →
      applyPatch patch u k = u k := by
  induction patch with
  | nil => intro u k _; rfl
  | cons p rest ih =>
    intro u k hk
    simp only [List.map_cons, List.mem_cons] at hk
    push_neg at hk
    have hstep : applyPatch (p :: rest) u =
        applyPatch rest (Function.update u p.1 p.2) := rfl
    rw [hstep, ih _ k hk.2, Function.update_apply, if_neg hk.1]

/-- C5 counterexample: the claim "the overrides are restored by the end
of the call in all cases, including when the spawn write throws" is
false on the code: `spawn` has no try/finally, so when the write throws
(`writeThrows = true`), the call propagates the exception with the
overridden value (`5`) still in place of the prior value (`0`). -/
theorem spawn_overrides_not_restored_on_throw :
    (spawnOverridesRun (fun _ => 0) (some [(0, 5)]) true).1 = true ∧
    (spawnOverridesRun (fun _ => 0) (some [(0, 5)]) true).2 0 = 5 ∧
    (fun _ => (0 : ℚ)) 0 = 0 := by
  refine ⟨rfl, ?_, rfl⟩
  show applyPatch [(0, 5)] (fun _ => 0) 0 = 5
  simp [applyPatch]

/-- C5 (amended): for every call to `spawn` with overrides, the
substituted configuration values are restored to their prior values by
the end of the call whenever the spawn write completes normally; if the
write throws, the restore is skipped (there is no try/finally). -/
theorem spawn_overrides_restored_on_success (u : Uniforms)
    (overrides : Option (List (ℕ × ℚ))) :
    (spawnOverridesRun u overrides false).2 = u ∧
    (spawnOverridesRun u overrides false).1 = false := by
  match overrides with
  | none => exact ⟨rfl, rfl⟩
  | some patch =>
    refine ⟨funext fun k => ?_, rfl⟩
    show applyPatch (savePrior patch u) (applyPatch patch u) k = u k
    rw [applyPatch_savePrior_apply patch u (applyPatch patch u) k]
    by_cases hk : k ∈ patch.map Prod.fst
    · rw [if_pos hk]
    · rw [if_neg hk]
      exact applyPatch_apply_not_mem patch u k hk

/-! ## C1: the two backends compute identical steps -/

theorem gpuEase_eq (kind p : ℚ) : gpuEase kind p = easedProgress kind p := by
  unfold gpuEase easedProgress
  split_ifs <;> ring

theorem gpuSpeedScale_eq (c : Config) (tex : CurveTex) (progress : ℚ) :
    gpuSpeedScale c tex progress = speedScaleOf c tex progress := by
  unfold gpuSpeedScale speedScaleOf
  rw [gpuEase_eq]
  split_ifs with h
  · rfl
  · unfold lerp
    ring

theorem gpuTurbulence_eq (fns : SimFns) (c : Config) (p v : Vec3) :
    gpuTurbulence fns c p v = turbulencePhase fns c p v := by
  unfold gpuTurbulence turbulencePhase
  split_ifs with h
  · simp only [Vec3.add_def, Vec3.smul_def, Vec3.mk.injEq]
    refine ⟨by ring, by ring, by ring⟩
  · rfl

theorem gpuAttractorForce_eq (sqrtQ : ℚ → ℚ) (att : Attractor) (p : Vec3) :
    gpuAttractorForce sqrtQ att p = attractorForce sqrtQ att p := by
  unfold gpuAttractorForce attractorForce
  simp only [attSafeDist, attDist, attFalloff, toAttractor, Vec3.sub,
    Vec3.dot, Vec3.smul_def]
  split_ifs with h1 h2 h2 <;>
    simp only [Vec3.mk.injEq, Vec3.cross] <;> refine ⟨by ring, by ring, by ring⟩

theorem gpuAttractors_eq (fns : SimFns) (c : Config) (p v : Vec3) :
    gpuAttractors fns c p v = attractorsPhase fns c p v := by
  unfold gpuAttractors attractorsPhase
  refine List.foldl_ext _ _ v fun acc att _ => ?_
  rw [gpuAttractorForce_eq]
  by_cases h : |att.strength| ≤ 1 / 1000
  · rw [if_neg (not_lt.mpr h), if_pos h]
  · rw [if_pos (not_le.mp h), if_neg h]

theorem gpuRotation_eq (fns : SimFns) (c : Config) (tex : CurveTex) (i : ℕ)
    (progress : ℚ) (rot : Vec3) :
    gpuRotation fns c tex i progress rot =
      rotationPhase fns c tex i progress rot := by
  unfold gpuRotation rotationPhase
  split_ifs with h h2
  · simp only [lerp, Vec3.add_def, Vec3.smul_def, Vec3.mk.injEq]
    refine ⟨by ring, by ring, by ring⟩
  · simp only [lerp, Vec3.add_def, Vec3.smul_def, Vec3.mk.injEq]
    refine ⟨by ring, by ring, by ring⟩
  · rfl

theorem gpuStep_eq_cpuStep (fns : SimFns) (c : Config) (tex : CurveTex)
    (i : ℕ) (s : Particle) : gpuStep fns c tex i s = cpuStep fns c tex i s := by
  by_cases hd : s.lifetime ≤ 0
  · rw [cpuStep_dead fns c tex i s hd]
    unfold gpuStep
    rw [if_neg (not_lt.mpr hd)]
  · unfold gpuStep cpuStep
    rw [if_pos (not_le.mp hd), if_neg hd]
    simp only [gpuSpeedScale_eq, gpuTurbulence_eq, gpuAttractors_eq,
      gpuRotation_eq, integratedPos, integratedVel]

/-- C1: given the same `SimulationConfig` uniforms, the same stored
per-particle state and the same deterministic hash/noise/sqrt functions,
the Device-Parallel backend (modelled from the spec, one lane per index)
and the Host-Sequential backend (`cpuUpdate`) compute numerically
equivalent results: the whole-store updates coincide, the new velocity
and position of every particle coincide, and in particular the per-tick
velocity and position deltas agree within `1e-4` componentwise. -/
theorem backend_equivalence_per_tick (fns : SimFns) (c : Config)
    (tex : CurveTex) (store : List Particle) (i : ℕ) (s : Particle) :
    gpuUpdate fns c tex store = cpuUpdate fns c tex store ∧
    (gpuStep fns c tex i s).velocity = (cpuStep fns c tex i s).velocity ∧
    (gpuStep fns c tex i s).position = (cpuStep fns c tex i s).position ∧
    |((gpuStep fns c tex i s).velocity.x - s.velocity.x) -
      ((cpuStep fns c tex i s).velocity.x - s.velocity.x)| ≤ 1 / 10000 ∧
    |((gpuStep fns c tex i s).velocity.y - s.velocity.y) -
      ((cpuStep fns c tex i s).velocity.y - s.velocity.y)| ≤ 1 / 10000 ∧
    |((gpuStep fns c tex i s).velocity.z - s.velocity.z) -
      ((cpuStep fns c tex i s).velocity.z - s.velocity.z)| ≤ 1 / 10000 ∧
    |((gpuStep fns c tex i s).position.x - s.position.x) -
      ((cpuStep fns c tex i s).position.x - s.position.x)| ≤ 1 / 10000 ∧
    |((gpuStep fns c tex i s).position.y - s.position.y) -
      ((cpuStep fns c tex i s).position.y - s.position.y)| ≤ 1 / 10000 ∧
    |((gpuStep fns c tex i s).position.z - s.position.z) -
      ((cpuStep fns c tex i s).position.z - s.position.z)| ≤ 1 / 10000 := by
  have hstep : ∀ (j : ℕ) (t : Particle),
      gpuStep fns c tex j t = cpuStep fns c tex j t :=
    fun j t => gpuStep_eq_cpuStep fns c tex j t
  have hupd : gpuUpdate fns c tex store = cpuUpdate fns c tex store := by
    unfold gpuUpdate cpuUpdate
    rw [funext fun j => funext fun t => hstep j t]
  refine ⟨hupd, ?_, ?_, ?_, ?_, ?_, ?_, ?_, ?_⟩ <;>
    rw [hstep i s] <;> simp

end ThreeVFX
